import Mathlib

set_option maxRecDepth 100000
set_option maxHeartbeats 2000000

/-!
# Verification of the JARVIS commercial bot (tienda21)

Shallow embedding of the repository's core logic into Lean 4, with theorems
settling the behavioural claims of the specification.  Timestamps are modelled
as integers counting seconds (a `timedelta(minutes = m)` is `m * 60`); the
per-user session table (`app/context/store.py`) is modelled as a function
`String → Option Session`; Python exceptions surface as `Option`/`Except`
values.  Python dataclass mutation becomes explicit state passing.
-/

namespace Tienda21

/-! ## Session data model (`app/session/models.py`) -/

/-- The `SessionState` enum from `app/session/models.py`. -/
inductive SessionState
  | active
  | idle
  | closed
  | escalated
  deriving DecidableEq

/-- The `MessageRole` enum from `app/session/models.py`. -/
inductive MessageRole
  | user
  | assistant
  | system
  deriving DecidableEq

/-- A `Message` record (role, content, timestamp); metadata is omitted
(no claim touches it and the code never reads it back). -/
structure Message where
  role : MessageRole
  content : String
  timestamp : Int
  deriving DecidableEq

/-- A `Session` record from `app/session/models.py`.  The free-form `context`
and `metadata` mappings are modelled as string-to-string association lists;
the claims only observe their emptiness/presence. -/
structure Session where
  session_id : String
  user_id : String
  state : SessionState
  created_at : Int
  last_access : Int
  messages : List Message
  context : List (String × String)
  metadata : Option (List (String × String))
  deriving DecidableEq

/-! ## Session store (`app/context/store.py`)

The module-level dict `_SESSIONS : Dict[str, Session]` becomes a function
from user ids to optional sessions. -/

/-- The in-memory session table `_SESSIONS`. -/
def Store := String → Option Session

/-- Python `init_db()` clears the table. -/
def init_db : Store := fun _ => none

/-- Dict assignment `_SESSIONS[uid] = s`. -/
def storeSet (st : Store) (uid : String) (s : Session) : Store :=
  fun u => if u = uid then some s else st u

/-- Dict removal `_SESSIONS.pop(uid, None)`. -/
def storePop (st : Store) (uid : String) : Store :=
  fun u => if u = uid then none else st u

/-- Store lookup `get_session(user_id)` from `app/context/store.py`: returns the stored
session only when its state is ACTIVE; a stored non-active session is popped
from the table and `None` is returned.  The (possibly mutated) table is
returned alongside the result. -/
def get_session (st : Store) (uid : String) : Option Session × Store :=
  match st uid with
  | none => (none, st)
  | some s =>
      if s.state ≠ SessionState.active then (none, storePop st uid)
      else (some s, st)

/-- Store write `save_session(session)` from `app/context/store.py`: a CLOSED session is
removed from the table instead of stored. -/
def save_session (st : Store) (s : Session) : Store :=
  if s.state = SessionState.closed then storePop st s.user_id
  else storeSet st s.user_id s

/-! ## Session manager (`app/session/manager.py`)

`SessionManager` holds only `timeout_minutes`; it is passed explicitly.
`datetime.now()` and `uuid.uuid4()` are the `now` / `freshId` parameters. -/

/-- Validity check `SessionManager._is_session_valid`: state must be ACTIVE and
`now <= last_access + timedelta(minutes=timeout)`. -/
def is_session_valid (timeout now : Int) (s : Session) : Bool :=
  if s.state ≠ SessionState.active then false
  else decide (now ≤ s.last_access + timeout * 60)

/-- The session record built by `SessionManager._create_new_session`: ACTIVE,
empty history, empty context, no metadata, the freshly generated identifier. -/
def fresh_session (uid freshId : String) (now : Int) : Session :=
  { session_id := freshId, user_id := uid, state := SessionState.active,
    created_at := now, last_access := now, messages := [], context := [],
    metadata := none }

/-- Creation helper `SessionManager._create_new_session`: a fresh ACTIVE session with empty
history, empty context and no metadata, persisted on creation. -/
def create_new_session (uid freshId : String) (now : Int) (st : Store) :
    Session × Store :=
  (fresh_session uid freshId now, save_session st (fresh_session uid freshId now))

/-- Lifecycle entry point `SessionManager.get_or_create_session`. -/
def get_or_create_session (timeout now : Int) (freshId : String) (st : Store)
    (uid : String) : Session × Store :=
  match get_session st uid with
  | (some s, st1) =>
      if is_session_valid timeout now s then
        let s' := { s with last_access := now }
        (s', save_session st1 s')
      else
        let s' := { s with state := SessionState.closed }
        create_new_session uid freshId now (save_session st1 s')
  | (none, st1) => create_new_session uid freshId now st1

/-- Append operation `SessionManager.update_session`: append the user message then the
assistant message, refresh `last_access`, persist.  The two
`datetime.now()` calls are collapsed into one `now` parameter. -/
def update_session (now : Int) (st : Store) (s : Session)
    (user_message bot_response : String) : Session × Store :=
  let s1 := { s with
    messages := s.messages ++
      [ { role := MessageRole.user, content := user_message, timestamp := now },
        { role := MessageRole.assistant, content := bot_response, timestamp := now } ],
    last_access := now }
  (s1, save_session st s1)

/-- Explicit close `SessionManager.close_session`: any lookup failure returns `False`;
otherwise the session is marked CLOSED and persisted (hence evicted). -/
def close_session (st : Store) (uid : String) : Bool × Store :=
  match get_session st uid with
  | (none, st1) => (false, st1)
  | (some s, st1) => (true, save_session st1 { s with state := SessionState.closed })

/-! ## Python text primitives

The rules engine and handoff manager work on `str.lower()`-normalised text
and on small regular-expression families (word-boundary alternations and
literal chains joined by the dot-star wildcard).  These are embedded as
executable character-list functions.  `pyCharLower` covers ASCII plus the
Spanish accented letters appearing in the pattern tables; this is the
restriction of Python's Unicode lowering to the alphabet the code uses. -/

/-- Lowering of one character, as Python `str.lower()` acts on ASCII and on
the Spanish accented letters used by the pattern tables. -/
def pyCharLower (c : Char) : Char :=
  if 65 ≤ c.toNat ∧ c.toNat ≤ 90 then Char.ofNat (c.toNat + 32)
  else if c = 'Á' then 'á'
  else if c = 'É' then 'é'
  else if c = 'Í' then 'í'
  else if c = 'Ó' then 'ó'
  else if c = 'Ú' then 'ú'
  else if c = 'Ñ' then 'ñ'
  else if c = 'Ü' then 'ü'
  else c

/-- Python `str.lower()`. -/
def pyLower (s : String) : String := String.mk (s.data.map pyCharLower)

/-- Whitespace in the sense of Python `str.strip()`. -/
def pyIsSpace (c : Char) : Bool :=
  c = ' ' || c = '\t' || c = '\n' || c = '\r' || c.toNat = 11 || c.toNat = 12

/-- Python `str.strip()` on a character list. -/
def pyStrip (l : List Char) : List Char :=
  ((l.dropWhile pyIsSpace).reverse.dropWhile pyIsSpace).reverse

/-- Case-sensitive prefix test on character lists (Python `startswith`). -/
def prefixCS : List Char → List Char → Bool
  | [], _ => true
  | _ :: _, [] => false
  | p :: ps, t :: ts => p == t && prefixCS ps ts

/-- Case-sensitive substring test (the Python `in` operator on `str`). -/
def containsCS (pat : List Char) : List Char → Bool
  | [] => prefixCS pat []
  | t :: ts => prefixCS pat (t :: ts) || containsCS pat ts

/-- Case-insensitive prefix test: pattern characters (already lowercase in
every table of the code) against lowered text characters, as `re.IGNORECASE`
behaves on these literal patterns. -/
def prefixCI : List Char → List Char → Bool
  | [], _ => true
  | _ :: _, [] => false
  | p :: ps, t :: ts => p == pyCharLower t && prefixCI ps ts

/-- Index of the first case-insensitive occurrence of a literal. -/
def findCI (pat : List Char) : List Char → Option Nat
  | [] => if prefixCI pat [] then some 0 else none
  | t :: ts =>
      if prefixCI pat (t :: ts) then some 0
      else (findCI pat ts).map (· + 1)

/-- Word characters for the `\b` anchor: the regex `\w` class restricted to
ASCII letters, digits, underscore and the Spanish accented letters the
patterns can be adjacent to. -/
def isWordChar (c : Char) : Bool :=
  decide ((97 ≤ c.toNat ∧ c.toNat ≤ 122) ∨ (65 ≤ c.toNat ∧ c.toNat ≤ 90) ∨
    (48 ≤ c.toNat ∧ c.toNat ≤ 57) ∨ c = '_' ∨
    c ∈ ([ 'á', 'é', 'í', 'ó', 'ú', 'ñ', 'ü', 'Á', 'É', 'Í', 'Ó', 'Ú', 'Ñ', 'Ü'] : List Char))

/-- Boundary on the left of a match position: start of text or a preceding
non-word character. -/
def prevOk : Option Char → Bool
  | none => true
  | some c => !(isWordChar c)

/-- Boundary on the right of a match: end of text or a following non-word
character. -/
def nextOk : List Char → Bool
  | [] => true
  | c :: _ => !(isWordChar c)

/-- Single left-to-right scan for one alternative of a `\b(w₁|…|wₙ)\b`
pattern; `prev` is the character preceding the current position. -/
def wbGo (w : List Char) (prev : Option Char) : List Char → Bool
  | [] => prevOk prev && prefixCI w [] && nextOk []
  | c :: rest =>
      (prevOk prev && prefixCI w (c :: rest) && nextOk ((c :: rest).drop w.length)) ||
      wbGo w (some c) rest

/-- Search for one alternative of a pattern of the shape `\b(w₁|…|wₙ)\b`:
the literal occurs at some position with a word boundary on each side
(every alternative in the code starts and ends with a word character). -/
def wordBoundarySearch (w : List Char) (text : List Char) : Bool :=
  wbGo w none text

/-- A chain of literals joined by `.*`, matched greedily inside one
newline-free segment (`.` does not match a newline in Python `re`). -/
def chainFrom : List (List Char) → List Char → Bool
  | [], _ => true
  | l :: ls, s =>
      match findCI l s with
      | none => false
      | some i => chainFrom ls (s.drop (i + l.length))

/-- Search semantics of a regex `l₁.*l₂.*…` over the whole text: since no
literal contains a newline and `.` never matches one, the regex matches
exactly when the chain matches inside a single line. -/
def chainSearch (lits : List (List Char)) (text : List Char) : Bool :=
  (text.splitOn '\n').any fun line => chainFrom lits line

/-! ## Pattern library (`app/rules/patterns.py`) -/

/-- Dict `get_forbidden_patterns()`: category name and the alternatives of
its word-boundary-anchored alternation, in the dict's insertion order. -/
def forbidden_patterns : List (String × List String) :=
  [ ("discrimination", ["discriminatorio", "racista", "sexista", "homofóbico", "odio"]),
    ("profanity", ["mierda", "idiota", "imbécil", "estúpido"]),
    ("illegal", ["drogas", "armas", "robar", "fraude"]),
    ("personal_data", ["dni", "documento", "contraseña", "tarjeta"]) ]

/-- First forbidden category whose pattern matches, mirroring the
first-match-wins loop over the dict in `check_message`. -/
def firstForbiddenMatch (text : List Char) : Option String :=
  (forbidden_patterns.find? fun nw =>
    nw.2.any fun w => wordBoundarySearch w.data text).map (·.1)

/-! ## Rules engine (`app/rules/engine.py`) -/

/-- The `RuleResult` record.  Confidence scores are exact rationals (the
Python floats 0.95, 0.8, 0.75, 0.85, 0.9 and 1.0 are all tiny decimals). -/
structure RuleResult where
  is_violation : Bool
  rule_name : String
  response : Option String
  confidence : ℚ
  deriving DecidableEq

/-- The prompt-injection pattern table of `RulesEngine.__init__`, each regex
decomposed as its dot-star-joined literal chain. -/
def prompt_injection_patterns : List (List String) :=
  [ ["ignore", "instructions"], ["forget", "previous"], ["system", "prompt"],
    ["act", "as", "different"], ["roleplay", "as"],
    ["ignora", "instrucciones"], ["olvida", "instrucciones"],
    ["actúa", "como"], ["comportate", "como"] ]

/-- The sensitive-content pattern table of `RulesEngine.__init__`. -/
def sensitive_patterns : List (List String) :=
  [ ["password"], ["secret", "key"], ["token"], ["api", "key"], ["credential"] ]

/-- Whether any pattern of a dot-star-chain table matches the text. -/
def anyChainMatch (pats : List (List String)) (text : List Char) : Bool :=
  pats.any fun lits => chainSearch (lits.map String.data) text

/-- Rule 1 of `check_message`: explicit forbidden patterns. -/
def checkForbidden (normalized : List Char) : Option RuleResult :=
  (firstForbiddenMatch normalized).map fun name =>
    { is_violation := true, rule_name := "forbidden_pattern_" ++ name,
      response := some "No puedo procesar ese tipo de solicitud.",
      confidence := 95/100 }

/-- Rule 2 of `check_message`: raw message longer than 1000 characters. -/
def checkLength (message : String) : Option RuleResult :=
  if message.length > 1000 then
    some { is_violation := true, rule_name := "message_too_long",
           response := some "Tu mensaje es demasiado largo.", confidence := 1 }
  else none

/-- Rule 3 of `check_message`: exact repetition of the most recent prior
user message (both sides lowered and stripped). -/
def checkRepetition (normalized : List Char) (session : Session) : Option RuleResult :=
  match session.messages.reverse.filter (fun m => decide (m.role = MessageRole.user)) with
  | [] => none
  | last :: _ =>
      if pyStrip (pyLower last.content).data = normalized then
        some { is_violation := true, rule_name := "repeated_message",
               response := some "Parece que ya enviaste ese mensaje.",
               confidence := 8/10 }
      else none

/-- Rule 4 of `check_message`: three or more user messages whose timestamps
lie within the trailing 60 seconds. -/
def checkSpam (now : Int) (session : Session) : Option RuleResult :=
  let recent := session.messages.filter fun m =>
    decide (m.role = MessageRole.user) && decide (now - m.timestamp < 60)
  if recent.length ≥ 3 then
    some { is_violation := true, rule_name := "spam_detected",
           response := some "Estás enviando mensajes muy rápido.",
           confidence := 75/100 }
  else none

/-- Rule 5 of `check_message`: prompt-injection patterns. -/
def checkInjection (normalized : List Char) : Option RuleResult :=
  if anyChainMatch prompt_injection_patterns normalized then
    some { is_violation := true, rule_name := "prompt_injection",
           response := some "No puedo cambiar mis instrucciones.",
           confidence := 85/100 }
  else none

/-- Inbound check `RulesEngine.check_message`, as the first-match-wins chain
of the five rules; when none fires, the non-violation result. -/
def check_message (now : Int) (message : String) (session : Session) : RuleResult :=
  let normalized := pyStrip (pyLower message).data
  (((((checkForbidden normalized).orElse
      fun _ => checkLength message).orElse
      fun _ => checkRepetition normalized session).orElse
      fun _ => checkSpam now session).orElse
      fun _ => checkInjection normalized).getD
    { is_violation := false, rule_name := "all_rules_passed",
      response := none, confidence := 1 }

/-- Outbound check `RulesEngine.check_response` (the session argument is
unused by the code).  `maxLen` is `settings.MAX_RESPONSE_LENGTH`. -/
def check_response (maxLen : Nat) (response : String) : RuleResult :=
  if response.length > maxLen then
    { is_violation := true, rule_name := "response_too_long",
      response := some "Mi respuesta es demasiado larga.", confidence := 1 }
  else if anyChainMatch sensitive_patterns response.data then
    { is_violation := true, rule_name := "sensitive_content",
      response := some "No puedo proporcionar esa información.", confidence := 9/10 }
  else
    { is_violation := false, rule_name := "response_valid",
      response := none, confidence := 1 }

/-! ## Handoff manager (`app/handoff/manager.py`) -/

/-- Phrase table of `HandoffManager._user_requests_human`. -/
def human_request_patterns : List String :=
  [ "hablar con un humano", "quiero hablar con alguien",
    "puedo hablar con un operador", "necesito hablar con una persona",
    "humano por favor", "operador", "agente", "persona", "alguien real" ]

/-- Phrase table of `HandoffManager._frustration_detected`. -/
def frustration_patterns : List String :=
  [ "no funciona", "no entiendo", "no me ayudaste", "inútil", "frustrante",
    "malo", "terrible", "no sirve", "estoy cansado", "no puedo", "imposible" ]

/-- Phrase table of `HandoffManager._complex_topic_detected`. -/
def complex_topic_patterns : List String :=
  [ "reembolso", "devolución", "queja", "problema con el pago", "facturación",
    "cancelar pedido", "urgente", "emergencia", "gerente", "supervisor" ]

/-- Explicit human request: any phrase is a substring of the lowered message. -/
def user_requests_human (message : String) : Bool :=
  human_request_patterns.any fun p => containsCS p.data (pyLower message).data

/-- The last-10-messages window `messages[-10:] if len(messages) > 10 else
messages` used by the handoff manager and the LLM adapter. -/
def pyLast10 (l : List Message) : List Message :=
  if l.length > 10 then l.drop (l.length - 10) else l

/-- Repeated failed attempts: five or more user messages in the last ten. -/
def multiple_failed_attempts (session : Session) : Bool :=
  decide (5 ≤ ((pyLast10 session.messages).filter
    fun m => decide (m.role = MessageRole.user)).length)

/-- Frustration language in the lowered message. -/
def frustration_detected (message : String) : Bool :=
  frustration_patterns.any fun p => containsCS p.data (pyLower message).data

/-- Complex/sensitive topic in the lowered message. -/
def complex_topic_detected (message : String) : Bool :=
  complex_topic_patterns.any fun p => containsCS p.data (pyLower message).data

/-- Long conversation: twenty or more messages in total. -/
def long_conversation (session : Session) : Bool :=
  decide (20 ≤ session.messages.length)

/-- Escalation decision `HandoffManager.should_handoff` as the code's
sequential early-return chain (the bot response argument is unused). -/
def should_handoff (session : Session) (last_message : String)
    (bot_response : String) : Bool :=
  if user_requests_human last_message then true
  else if multiple_failed_attempts session then true
  else if frustration_detected last_message then true
  else if complex_topic_detected last_message then true
  else if long_conversation session then true
  else false

/-! ## LLM adapter (`app/llm/adapter.py`)

Provider connectors issue HTTP calls; one attempt is modelled by its outcome,
an `Option String` (`none` for a raised exception, `some r` for a completion).
`attempts` maps a provider name to its outcome in this request. -/

/-- The fixed fallback order of `LLMAdapter._get_fallback_providers`. -/
def fallback_order : List String := ["mistral", "groq", "openai"]

/-- The fixed apology returned when every provider fails. -/
def apology : String :=
  "Lo siento, estoy experimentando dificultades técnicas. Por favor, intenta más tarde."

/-- The three per-provider API keys from `Settings` (each `Optional[str]`). -/
structure LLMConfig where
  mistral_key : Option String
  groq_key : Option String
  openai_key : Option String

/-- Python truthiness of an optional string: `None` and the empty string are
falsy. -/
def keyTruthy : Option String → Bool
  | none => false
  | some s => decide (s ≠ "")

/-- One step of the if/elif ladder in `_get_fallback_providers`: a provider
name is kept exactly when it is recognised and its API key is configured. -/
def fallbackKeep (cfg : LLMConfig) (name : String) : Option String :=
  if name = "mistral" then
    (if keyTruthy cfg.mistral_key then some "mistral" else none)
  else if name = "groq" then
    (if keyTruthy cfg.groq_key then some "groq" else none)
  else if name = "openai" then
    (if keyTruthy cfg.openai_key then some "openai" else none)
  else none

/-- Whether a provider name has its API key configured in the settings. -/
def configured (cfg : LLMConfig) (name : String) : Bool :=
  if name = "mistral" then keyTruthy cfg.mistral_key
  else if name = "groq" then keyTruthy cfg.groq_key
  else if name = "openai" then keyTruthy cfg.openai_key
  else false

/-- Fallback chain construction `LLMAdapter._get_fallback_providers`: the
fixed order with the primary removed (`list.remove`, first occurrence), then
the code's if/elif ladder keeping each provider only when its key is
configured. -/
def get_fallback_providers (primary : String) (cfg : LLMConfig) : List String :=
  (fallback_order.erase primary).filterMap (fallbackKeep cfg)

/-- The fallback loop inside `process_message`: first success wins, and the
exhausted chain yields the fixed apology. -/
def try_fallbacks (attempts : String → Option String) : List String → String
  | [] => apology
  | p :: ps =>
      match attempts p with
      | some r => r
      | none => try_fallbacks attempts ps

/-- Message orchestration `LLMAdapter.process_message`: primary provider
first, then each configured fallback, then the apology.  Exceptions raised by
a provider are the `none` outcomes; the function itself is total. -/
def process_message (primary : String) (cfg : LLMConfig)
    (attempts : String → Option String) : String :=
  match attempts primary with
  | some r => r
  | none => try_fallbacks attempts (get_fallback_providers primary cfg)

/-! ## Response generator (`app/responses/generator.py`) -/

/-- Python `str.rfind` for a single character on a character list: highest
index of an occurrence, or -1. -/
def pyRfind (c : Char) : List Char → Int
  | [] => -1
  | x :: xs =>
      let r := pyRfind c xs
      if r = -1 then (if x = c then 0 else -1) else r + 1

/-- The fixed truncation notice appended by `_truncate_response`. -/
def TRUNC_NOTICE : String :=
  "\n\n(Respuesta truncada por longitud. ¿Hay algo específico que quieras saber?)"

/-- Truncation `ResponseGenerator._truncate_response`: cut to `maxLen`
characters, look backwards for the last period or newline, keep up to that
boundary when `cut_pos > maxLen * 0.8` and otherwise keep the hard cut; the
notice is appended either way.  The comparison is modelled exactly as
`5 * cut_pos > 4 * maxLen`; for the default `maxLen = 500` the Python float
product `500 * 0.8` is exactly `400.0`, so this matches the float test. -/
def truncate_response (maxLen : Nat) (response : String) : String :=
  let truncated := response.data.take maxLen
  let last_period := pyRfind '.' truncated
  let last_newline := pyRfind '\n' truncated
  let cut_pos := max last_period last_newline
  if 4 * (maxLen : Int) < 5 * cut_pos then
    String.mk (truncated.take (cut_pos.toNat + 1)) ++ TRUNC_NOTICE
  else
    String.mk truncated ++ TRUNC_NOTICE

/-- The length-enforcement step of `ResponseGenerator.generate`: truncation
runs only when the processed text exceeds the configured maximum. -/
def enforce_length (maxLen : Nat) (s : String) : String :=
  if s.length > maxLen then truncate_response maxLen s else s

/-! ## Catalog loader (`app/context/loader.py`)

Products are platform dicts; the featured-product logic reads the keys
`featured` (default false) and `created_at` (default empty string), so a
product is modelled by those two fields plus an identifier.  The local
catalog (`get_catalog()` of the store layer, whose body is not part of the
checked sources) is the explicit `catalog` list parameter. -/

/-- A locally stored product, restricted to the fields
`CatalogLoader.get_featured_products` reads. -/
structure Product where
  pid : String
  featured : Bool
  created_at : String
  deriving DecidableEq

/-- Lexicographic comparison by code point, as Python orders strings. -/
def strLt : List Char → List Char → Bool
  | [], [] => false
  | [], _ :: _ => true
  | _ :: _, [] => false
  | x :: xs, y :: ys => if x = y then strLt xs ys else decide (x < y)

/-- Insertion into a descending-by-creation-date list, placing the inserted
element before every element whose key is not greater — the unique stable
descending order, matching Python's stable `list.sort(key=…, reverse=True)`. -/
def insertByDateDesc (x : Product) : List Product → List Product
  | [] => [x]
  | h :: t =>
      if strLt x.created_at.data h.created_at.data then h :: insertByDateDesc x t
      else x :: h :: t

/-- Stable sort by `created_at` descending (`catalog.sort(key=…, reverse=True)`). -/
def sortByDateDesc : List Product → List Product
  | [] => []
  | h :: t => insertByDateDesc h (sortByDateDesc t)

/-- Featured selection `CatalogLoader.get_featured_products`: filter the
flagged products; when fewer than `limit` are flagged, the whole catalog
sorted most-recent-first replaces the selection; return at most `limit`. -/
def get_featured_products (catalog : List Product) (limit : Nat) : List Product :=
  let featured := catalog.filter fun p => p.featured
  let featured2 :=
    if featured.length < limit then (sortByDateDesc catalog).take limit
    else featured
  featured2.take limit

/-! ## Metrics collector (`app/observability/metrics.py`)

Timing samples are exact rationals (Python floats; every sample and
statistic in the claims is a small decimal).  One named series of the
`_timers` table is a `List ℚ`. -/

/-- Sample recording `MetricsCollector.record_time`: append, then keep only
the most recent 1000 samples. -/
def record_time (timers : List ℚ) (d : ℚ) : List ℚ :=
  let l := timers ++ [d]
  if l.length > 1000 then l.drop (l.length - 1000) else l

/-- Ascending insertion for `sorted(times)`. -/
def insertAsc (x : ℚ) : List ℚ → List ℚ
  | [] => [x]
  | h :: t => if x ≤ h then x :: h :: t else h :: insertAsc x t

/-- Python `sorted` on a list of rationals. -/
def sortAsc : List ℚ → List ℚ
  | [] => []
  | h :: t => insertAsc h (sortAsc t)

/-- The statistics dict returned by `get_timer_stats`. -/
structure TimerStats where
  count : Nat
  avg : ℚ
  min : ℚ
  max : ℚ
  p50 : ℚ
  p95 : ℚ
  p99 : ℚ
  deriving DecidableEq

/-- Statistics `MetricsCollector.get_timer_stats`.  The percentile indices
`int(count * f)` are modelled as the exact `count * n / 100` naturals: for
every count up to the 1000-sample cap the Python double products
`count * 0.5`, `count * 0.95`, `count * 0.99` truncate to exactly these
values (the double of 0.95 and 0.99 sits less than half an ulp below the
decimal, too close for any product with `count ≤ 1000` to cross an integer). -/
def get_timer_stats (times : List ℚ) : TimerStats :=
  match times with
  | [] => { count := 0, avg := 0, min := 0, max := 0, p50 := 0, p95 := 0, p99 := 0 }
  | _ :: _ =>
      let sorted := sortAsc times
      let count := times.length
      { count := count,
        avg := sorted.sum / count,
        min := sorted.headD 0,
        max := sorted.getLastD 0,
        p50 := sorted.getD (count * 50 / 100) 0,
        p95 := sorted.getD (count * 95 / 100) 0,
        p99 := sorted.getD (count * 99 / 100) 0 }

/-! ## Webhook security (`app/gateway/security.py`)

`verify_webhook_signature` delegates the digest to the standard-library
`hmac`/`hashlib` HMAC-SHA-256; that construction is embedded concretely so
the comparison is against the real digest.  Bytes are naturals below 256. -/

/-- Encoding of one character to UTF-8 bytes, as Python `str.encode("utf-8")`. -/
def utf8Char (c : Char) : List Nat :=
  let n := c.toNat
  if n < 128 then [n]
  else if n < 2048 then [192 + n / 64, 128 + n % 64]
  else if n < 65536 then [224 + n / 4096, 128 + (n / 64) % 64, 128 + n % 64]
  else [240 + n / 262144, 128 + (n / 4096) % 64, 128 + (n / 64) % 64, 128 + n % 64]

/-- UTF-8 encoding of a string. -/
def utf8Bytes (s : String) : List Nat := (s.data.map utf8Char).flatten

/-- Reduction to a 32-bit word. -/
def w32 (n : Nat) : Nat := n % 4294967296

/-- 32-bit modular addition. -/
def add32 (a b : Nat) : Nat := (a + b) % 4294967296

/-- 32-bit right rotation. -/
def rot32 (n x : Nat) : Nat := (x >>> n) ||| w32 (x <<< (32 - n))

/-- SHA-256 lowercase sigma 0 (schedule mixing). -/
def sigS0 (x : Nat) : Nat := (rot32 7 x) ^^^ (rot32 18 x) ^^^ (x >>> 3)

/-- SHA-256 lowercase sigma 1 (schedule mixing). -/
def sigS1 (x : Nat) : Nat := (rot32 17 x) ^^^ (rot32 19 x) ^^^ (x >>> 10)

/-- SHA-256 uppercase Sigma 0 (round mixing). -/
def sigB0 (x : Nat) : Nat := (rot32 2 x) ^^^ (rot32 13 x) ^^^ (rot32 22 x)

/-- SHA-256 uppercase Sigma 1 (round mixing). -/
def sigB1 (x : Nat) : Nat := (rot32 6 x) ^^^ (rot32 11 x) ^^^ (rot32 25 x)

/-- SHA-256 choice function (complement written as xor with the 32-bit
all-ones mask). -/
def chF (x y z : Nat) : Nat := (x &&& y) ^^^ ((x ^^^ 4294967295) &&& z)

/-- SHA-256 majority function. -/
def majF (x y z : Nat) : Nat := (x &&& y) ^^^ (x &&& z) ^^^ (y &&& z)

/-- The 64 SHA-256 round constants of FIPS 180-4 (the first 32 fractional
bits of the cube roots of the first 64 primes), as decimal naturals; the
test-vector lemmas below validate the table. -/
def sha256K : List Nat :=
  [ 1116352408, 1899447441, 3049323471, 3921009573, 961987163, 1508970993,
    2453635748, 2870763221, 3624381080, 310598401, 607225278, 1426881987,
    1925078388, 2162078206, 2614888103, 3248222580, 3835390401, 4022224774,
    264347078, 604807628, 770255983, 1249150122, 1555081692, 1996064986,
    2554220882, 2821834349, 2952996808, 3210313671, 3336571891, 3584528711,
    113926993, 338241895, 666307205, 773529912, 1294757372, 1396182291,
    1695183700, 1986661051, 2177026350, 2456956037, 2730485921, 2820302411,
    3259730800, 3345764771, 3516065817, 3600352804, 4094571909, 275423344,
    430227734, 506948616, 659060556, 883997877, 958139571, 1322822218,
    1537002063, 1747873779, 1955562222, 2024104815, 2227730452, 2361852424,
    2428436474, 2756734187, 3204031479, 3329325298 ]

/-- The SHA-256 working state (eight 32-bit words). -/
structure Hash8 where
  a : Nat
  b : Nat
  c : Nat
  d : Nat
  e : Nat
  f : Nat
  g : Nat
  h : Nat

/-- The SHA-256 initial hash value of FIPS 180-4 (fractional bits of the
square roots of the first 8 primes), as decimal naturals. -/
def sha256H0 : Hash8 :=
  { a := 1779033703, b := 3144134277, c := 1013904242, d := 2773480762,
    e := 1359893119, f := 2600822924, g := 528734635, h := 1541459225 }

/-- Big-endian 8-byte encoding of the bit length. -/
def be64 (n : Nat) : List Nat :=
  (List.range 8).map fun i => (n >>> (8 * (7 - i))) % 256

/-- SHA-256 padding: 0x80, zeros, then the 64-bit big-endian bit length. -/
def padMessage (msg : List Nat) : List Nat :=
  let L := msg.length
  msg ++ 128 :: List.replicate ((64 - (L + 9) % 64) % 64) 0 ++ be64 (8 * L)

/-- Big-endian grouping of bytes into 32-bit words. -/
def bytesToWords : List Nat → List Nat
  | b0 :: b1 :: b2 :: b3 :: rest =>
      (b0 * 16777216 + b1 * 65536 + b2 * 256 + b3) :: bytesToWords rest
  | _ => []

/-- Fuelled grouping of a word list into 16-word blocks. -/
def chunksGo : Nat → List Nat → List (List Nat)
  | 0, _ => []
  | _, [] => []
  | fuel + 1, w :: ws => (w :: ws).take 16 :: chunksGo fuel ((w :: ws).drop 16)

/-- Grouping into 16-word blocks (the fuel covers every block). -/
def chunks16 (l : List Nat) : List (List Nat) := chunksGo l.length l

/-- Message-schedule extension: `acc` holds the words produced so far in
reverse; 48 steps extend the 16 block words to 64. -/
def scheduleGo : Nat → List Nat → List Nat
  | 0, acc => acc
  | n + 1, acc =>
      let next := add32 (add32 (sigS1 (acc.getD 1 0)) (acc.getD 6 0))
        (add32 (sigS0 (acc.getD 14 0)) (acc.getD 15 0))
      scheduleGo n (next :: acc)

/-- The 64-word message schedule of a block. -/
def schedule (block : List Nat) : List Nat := (scheduleGo 48 block.reverse).reverse

/-- The 64 compression rounds, driven by the zipped round constants and
schedule words. -/
def roundsGo : List (Nat × Nat) → Hash8 → Hash8
  | [], st => st
  | (k, w) :: rest, st =>
      let t1 := add32 st.h (add32 (sigB1 st.e) (add32 (chF st.e st.f st.g) (add32 k w)))
      let t2 := add32 (sigB0 st.a) (majF st.a st.b st.c)
      roundsGo rest
        { a := add32 t1 t2, b := st.a, c := st.b, d := st.c,
          e := add32 st.d t1, f := st.e, g := st.f, h := st.g }

/-- One SHA-256 block compression, including the feed-forward addition. -/
def compressBlock (H : Hash8) (block : List Nat) : Hash8 :=
  let st := roundsGo (sha256K.zip (schedule block)) H
  { a := add32 H.a st.a, b := add32 H.b st.b, c := add32 H.c st.c,
    d := add32 H.d st.d, e := add32 H.e st.e, f := add32 H.f st.f,
    g := add32 H.g st.g, h := add32 H.h st.h }

/-- Big-endian 4-byte encoding of a 32-bit word. -/
def wordBytes (w : Nat) : List Nat :=
  [ (w >>> 24) % 256, (w >>> 16) % 256, (w >>> 8) % 256, w % 256 ]

/-- SHA-256 of a byte list, as the 32 digest bytes. -/
def sha256 (msg : List Nat) : List Nat :=
  let Hf := (chunks16 (bytesToWords (padMessage msg))).foldl compressBlock sha256H0
  ([Hf.a, Hf.b, Hf.c, Hf.d, Hf.e, Hf.f, Hf.g, Hf.h].map wordBytes).flatten

/-- HMAC-SHA-256 (RFC 2104, as `hmac.new(key, payload, hashlib.sha256)`):
long keys are hashed, keys are zero-padded to the 64-byte block, and the
inner/outer digests use the 0x36/0x5c pads. -/
def hmacSha256 (key msg : List Nat) : List Nat :=
  let k1 := if key.length > 64 then sha256 key else key
  let k2 := k1 ++ List.replicate (64 - k1.length) 0
  sha256 ((k2.map fun b => b ^^^ 92) ++ sha256 ((k2.map fun b => b ^^^ 54) ++ msg))

/-- One lowercase hexadecimal digit. -/
def hexDigit (n : Nat) : Char :=
  if n < 10 then Char.ofNat (48 + n) else Char.ofNat (87 + n)

/-- Lowercase hex encoding of a byte list (Python `hexdigest()`). -/
def bytesToHex (bs : List Nat) : String :=
  String.mk ((bs.map fun b => [hexDigit (b / 16), hexDigit (b % 16)]).flatten)

/-- The lowercase hex HMAC-SHA-256 digest of a payload under a secret
(UTF-8 encoded), exactly what `verify_webhook_signature` recomputes. -/
def hmacSha256Hex (secret : String) (payload : List Nat) : String :=
  bytesToHex (hmacSha256 (utf8Bytes secret) payload)

/-- Python truthiness of an `Optional[str]` value. -/
def pyFalsyStr : Option String → Bool
  | none => true
  | some s => decide (s = "")

/-- Signature check `verify_webhook_signature(signature, payload, secret)`:
false when either the signature or the secret is absent/empty, otherwise a
constant-time comparison (semantically equality) of the supplied signature
against the recomputed lowercase hex digest. -/
def verify_webhook_signature (signature : Option String) (payload : List Nat)
    (secret : Option String) : Bool :=
  if pyFalsyStr signature || pyFalsyStr secret then false
  else decide (signature.getD "" = hmacSha256Hex (secret.getD "") payload)

/-! ## Gateway chat endpoint (`app/gateway/router.py`)

The HTTP outcome of `POST /webhook/chat` is either an `HTTPException`
(status code and detail) or the JSON reply text.  The downstream
LLM-plus-response-generator pipeline of the non-violation branch performs
network I/O and is abstracted as the `llmGen` argument; everything the claim
touches (the guard, the session manager, the rules engine, the store) is the
concrete embedding above. -/

/-- Chat endpoint `chat_webhook`: the missing-field guard tests Python
falsiness of `payload.get(...)`, so an empty string behaves like an absent
key; afterwards the session is obtained or created, the rules engine checks
the message, the reply is the rule's canned response on violation or the
generated output otherwise, and both messages are appended to the session. -/
def chat_webhook (timeout now : Int) (freshId : String)
    (llmGen : String → Session → String) (st : Store)
    (user_id message : Option String) : Except (Nat × String) String × Store :=
  if pyFalsyStr user_id || pyFalsyStr message then
    (Except.error (400, "Faltan datos requeridos"), st)
  else
    let uid := user_id.getD ""
    let msg := message.getD ""
    let (session, st1) := get_or_create_session timeout now freshId st uid
    let rule := check_message now msg session
    let response := if rule.is_violation then rule.response.getD "" else llmGen msg session
    let (_, st2) := update_session now st1 session msg response
    (Except.ok response, st2)

/-! ## Concrete fixtures used by witnesses and counterexamples -/

/-- An empty active session for concrete evaluations. -/
def session0 : Session :=
  { session_id := "sid-0", user_id := "u-0", state := SessionState.active,
    created_at := 0, last_access := 0, messages := [], context := [],
    metadata := none }

/-- A stored active session for the user u1. -/
def sessionOld : Session :=
  { session_id := "sid-old", user_id := "u1", state := SessionState.active,
    created_at := 0, last_access := 0, messages := [], context := [],
    metadata := none }

/-- A one-entry store holding `sessionOld` under its user id. -/
def store1 : Store := storeSet init_db "u1" sessionOld

/-- A message of 1001 identical characters. -/
def longMessage : String := String.mk (List.replicate 1001 'a')

/-- The raw bytes of the test payload, Python `b'{"test":"data"}'`. -/
def testPayload : List Nat := utf8Bytes "\x7b\"test\":\"data\"\x7d"

/-- A 502-character response whose only sentence boundary in the first 500
characters sits at index 400 — exactly 80 percent of the default limit. -/
def boundary400 : String :=
  String.mk (List.replicate 400 'a' ++ '.' :: List.replicate 101 'b')

/-- A 551-character response with its last early period at index 450, inside
the strict last-20-percent window. -/
def boundary450 : String :=
  String.mk (List.replicate 450 'a' ++ '.' :: List.replicate 100 'b')

/-- A featured product older than every non-featured product. -/
def productA : Product := { pid := "A", featured := true, created_at := "2010" }

/-- A catalog with one (old) featured product and five newer plain ones. -/
def catalogWit : List Product :=
  [ productA,
    { pid := "B", featured := false, created_at := "2023" },
    { pid := "C", featured := false, created_at := "2022" },
    { pid := "D", featured := false, created_at := "2021" },
    { pid := "E", featured := false, created_at := "2020" },
    { pid := "F", featured := false, created_at := "2019" } ]

/-! ## Store lemmas -/

theorem storePop_self (st : Store) (uid : String) : storePop st uid uid = none := by
  simp [storePop]

theorem storeSet_self (st : Store) (uid : String) (s : Session) :
    storeSet st uid s uid = some s := by
  simp [storeSet]

theorem store1_wf : ∀ u s, store1 u = some s → s.user_id = u := by
  intro u s h
  simp only [store1, storeSet, init_db] at h
  split at h
  next heq =>
    injection h with h2
    subst heq
    rw [← h2]
    rfl
  next => cases h

/-! ## Claim C1: closed or expired sessions are never reused -/

/-- C1.  For every well-formed store (sessions stored under their own user
id): (a) after a successful `close_session(user_id)`, `get_session` on the
store returns absent; (b) the next `get_or_create_session` returns the
freshly created session, whose identifier differs from the closed one's
whenever the generated id is new; (c) when the store holds a session for the
user that is non-active or past its timeout, `get_or_create_session` returns
a fresh session — new identifier, state active, empty message history, empty
context — and the store afterwards maps the user to that fresh session. -/
theorem C1_session_never_reused (st : Store) (uid : String)
    (timeout now : Int) (freshId : String)
    (hwf : ∀ u s, st u = some s → s.user_id = u) :
    ((close_session st uid).1 = true →
      (get_session (close_session st uid).2 uid).1 = none) ∧
    (∀ s0, st uid = some s0 → (close_session st uid).1 = true →
      (get_or_create_session timeout now freshId (close_session st uid).2 uid).1 =
        fresh_session uid freshId now ∧
      (freshId ≠ s0.session_id →
        (get_or_create_session timeout now freshId (close_session st uid).2 uid).1.session_id
          ≠ s0.session_id)) ∧
    (∀ s, st uid = some s →
      (s.state ≠ SessionState.active ∨ s.last_access + timeout * 60 < now) →
      (get_or_create_session timeout now freshId st uid).1 =
        fresh_session uid freshId now ∧
      (get_or_create_session timeout now freshId st uid).2 uid =
        some (fresh_session uid freshId now)) := by
  have hclosed : ∀ s0 : Session, st uid = some s0 → s0.state = SessionState.active →
      (close_session st uid) = (true, storePop st uid) := by
    intro s0 h0 hact
    have huid := hwf uid s0 h0
    simp [close_session, get_session, h0, hact, save_session, huid]
  refine ⟨?_, ?_, ?_⟩
  · intro hc
    rcases h0 : st uid with _ | s0
    · simp [close_session, get_session, h0] at hc
    · by_cases hact : s0.state = SessionState.active
      · rw [hclosed s0 h0 hact]
        simp [get_session, storePop_self]
      · simp [close_session, get_session, h0, hact] at hc
  · intro s0 h0 hc
    by_cases hact : s0.state = SessionState.active
    · rw [hclosed s0 h0 hact]
      constructor
      · simp [get_or_create_session, get_session, storePop_self, create_new_session]
      · intro hne
        simp [get_or_create_session, get_session, storePop_self, create_new_session,
          fresh_session]
        exact hne
    · simp [close_session, get_session, h0, hact] at hc
  · intro s h0 hbad
    have huid := hwf uid s h0
    by_cases hact : s.state = SessionState.active
    · have hexp : s.last_access + timeout * 60 < now := by
        rcases hbad with hbad | hbad
        · exact absurd hact hbad
        · exact hbad
      have hval : is_session_valid timeout now s = false := by
        simp [is_session_valid, hact]
        omega
      constructor
      · simp [get_or_create_session, get_session, h0, hact, hval, create_new_session]
      · simp [get_or_create_session, get_session, h0, hact, hval, create_new_session,
          save_session, fresh_session, storeSet]
    · constructor
      · simp [get_or_create_session, get_session, h0, hact, create_new_session]
      · simp [get_or_create_session, get_session, h0, hact, create_new_session,
          save_session, fresh_session, storeSet]

/-- Witness for C1: with a concrete one-session store, closing the session
succeeds, the store then reports it absent, and the next
`get_or_create_session` yields the fresh identifier sid-new, not sid-old. -/
theorem C1_witness :
    (close_session store1 "u1").1 = true ∧
    (get_session (close_session store1 "u1").2 "u1").1 = none ∧
    (get_or_create_session 30 0 "sid-new" (close_session store1 "u1").2 "u1").1 =
      fresh_session "u1" "sid-new" 0 ∧
    (get_or_create_session 30 0 "sid-new" (close_session store1 "u1").2 "u1").1.session_id
      ≠ "sid-old" := by
  have h := C1_session_never_reused store1 "u1" 30 0 "sid-new" store1_wf
  have hc : (close_session store1 "u1").1 = true := by decide
  have h0 : store1 "u1" = some sessionOld := by decide
  refine ⟨hc, h.1 hc, (h.2.1 sessionOld h0 hc).1, ?_⟩
  have := (h.2.1 sessionOld h0 hc).2 (by decide)
  simpa [sessionOld] using this

/-! ## LLM adapter lemmas -/

theorem fallbackKeep_eq (cfg : LLMConfig) (name : String) :
    fallbackKeep cfg name = if configured cfg name then some name else none := by
  unfold fallbackKeep configured
  split_ifs <;> simp_all

theorem filterMap_fallbackKeep (cfg : LLMConfig) (l : List String) :
    l.filterMap (fallbackKeep cfg) = l.filter (configured cfg) := by
  induction l with
  | nil => rfl
  | cons h t ih =>
      by_cases hc : configured cfg h <;>
        simp [List.filterMap_cons, List.filter_cons, fallbackKeep_eq, hc, ih]

theorem try_fallbacks_all_none (attempts : String → Option String)
    (l : List String) (h : ∀ p ∈ l, attempts p = none) :
    try_fallbacks attempts l = apology := by
  induction l with
  | nil => rfl
  | cons p ps ih =>
      have hp := h p (by simp)
      simp [try_fallbacks, hp]
      exact ih fun q hq => h q (by simp [hq])

theorem try_fallbacks_first_success (attempts : String → Option String)
    (l : List String) (h : ∃ p ∈ l, (attempts p).isSome) :
    ∃ p ∈ l, attempts p = some (try_fallbacks attempts l) := by
  induction l with
  | nil => simp at h
  | cons p ps ih =>
      cases hap : attempts p with
      | some r => exact ⟨p, by simp, by simp [try_fallbacks, hap]⟩
      | none =>
          obtain ⟨q, hq, hqs⟩ := h
          cases hq with
          | head =>
              rw [hap] at hqs
              simp at hqs
          | tail _ hq2 =>
              obtain ⟨q', hq', hval⟩ := ih ⟨q, hq2, hqs⟩
              exact ⟨q', by simp [hq'], by simpa [try_fallbacks, hap] using hval⟩

/-! ## Claim C2: process_message tolerates provider outages -/

/-- C2.  The fallback chain is exactly the fixed order with the primary
removed, filtered to configured keys; `process_message` returns the primary
output on success, the first succeeding configured fallback's output when the
primary fails, and the fixed apology when every provider fails — it is a
total function, never an exception. -/
theorem C2_llm_fallback (primary : String) (cfg : LLMConfig)
    (attempts : String → Option String) :
    (get_fallback_providers primary cfg =
      (fallback_order.erase primary).filter (configured cfg)) ∧
    (∀ r, attempts primary = some r → process_message primary cfg attempts = r) ∧
    (attempts primary = none →
      (∃ p ∈ get_fallback_providers primary cfg, (attempts p).isSome) →
      ∃ p ∈ get_fallback_providers primary cfg,
        attempts p = some (process_message primary cfg attempts)) ∧
    (attempts primary = none →
      (∀ p ∈ get_fallback_providers primary cfg, attempts p = none) →
      process_message primary cfg attempts = apology) := by
  refine ⟨filterMap_fallbackKeep cfg _, ?_, ?_, ?_⟩
  · intro r hr
    simp [process_message, hr]
  · intro hp hex
    have := try_fallbacks_first_success attempts (get_fallback_providers primary cfg) hex
    simpa [process_message, hp] using this
  · intro hp hall
    simp [process_message, hp]
    exact try_fallbacks_all_none attempts _ hall

/-- Witness for C2: with mistral primary, every key configured and every
provider failing, the adapter returns the fixed apology. -/
theorem C2_witness :
    process_message "mistral"
      { mistral_key := some "k1", groq_key := some "k2", openai_key := some "k3" }
      (fun _ => none) = apology := by
  have h := C2_llm_fallback "mistral"
    { mistral_key := some "k1", groq_key := some "k2", openai_key := some "k3" }
    (fun _ => none)
  exact h.2.2.2 rfl (by decide)

/-! ## Claim C10: the chat endpoint guard tests falsiness -/

/-- C10.  A chat payload whose user_id or message is present but empty is
answered exactly like one with the field absent: HTTP 400 with detail
Faltan datos requeridos, and the session store is left untouched (so no
session is created or refreshed, no rule check contributes a reply, and no
message is appended to any history). -/
theorem C10_empty_fields_rejected (timeout now : Int) (freshId : String)
    (llmGen : String → Session → String) (st : Store) (u m : Option String) :
    (chat_webhook timeout now freshId llmGen st (some "") m =
      (Except.error (400, "Faltan datos requeridos"), st)) ∧
    (chat_webhook timeout now freshId llmGen st u (some "") =
      (Except.error (400, "Faltan datos requeridos"), st)) ∧
    (chat_webhook timeout now freshId llmGen st (some "") m =
      chat_webhook timeout now freshId llmGen st none m) ∧
    (chat_webhook timeout now freshId llmGen st u (some "") =
      chat_webhook timeout now freshId llmGen st u none) := by
  refine ⟨?_, ?_, ?_, ?_⟩ <;> simp [chat_webhook, pyFalsyStr]

/-! ## Rules engine lemmas -/

theorem chainP (P : RuleResult → Prop) (o1 o2 o3 o4 o5 : Option RuleResult)
    (d : RuleResult)
    (h1 : ∀ r, o1 = some r → P r) (h2 : ∀ r, o2 = some r → P r)
    (h3 : ∀ r, o3 = some r → P r) (h4 : ∀ r, o4 = some r → P r)
    (h5 : ∀ r, o5 = some r → P r) (hd : P d) :
    P (((((o1.orElse fun _ => o2).orElse fun _ => o3).orElse fun _ => o4).orElse
      fun _ => o5).getD d) := by
  cases o1 with
  | some r => simpa [Option.orElse] using h1 r rfl
  | none =>
  cases o2 with
  | some r => simpa [Option.orElse] using h2 r rfl
  | none =>
  cases o3 with
  | some r => simpa [Option.orElse] using h3 r rfl
  | none =>
  cases o4 with
  | some r => simpa [Option.orElse] using h4 r rfl
  | none =>
  cases o5 with
  | some r => simpa [Option.orElse] using h5 r rfl
  | none => simpa [Option.orElse] using hd

theorem checkForbidden_shape (n : List Char) (r : RuleResult)
    (h : checkForbidden n = some r) :
    ∃ name, firstForbiddenMatch n = some name ∧
      r = { is_violation := true, rule_name := "forbidden_pattern_" ++ name,
            response := some "No puedo procesar ese tipo de solicitud.",
            confidence := 95/100 } := by
  unfold checkForbidden at h
  cases hf : firstForbiddenMatch n with
  | none => rw [hf] at h; cases h
  | some name =>
      rw [hf] at h
      injection h with h2
      exact ⟨name, rfl, h2.symm⟩

theorem checkLength_shape (m : String) (r : RuleResult)
    (h : checkLength m = some r) :
    1000 < m.length ∧
      r = { is_violation := true, rule_name := "message_too_long",
            response := some "Tu mensaje es demasiado largo.", confidence := 1 } := by
  unfold checkLength at h
  split at h
  next hlen => exact ⟨hlen, by injection h with h2; exact h2.symm⟩
  next => cases h

theorem checkRepetition_shape (n : List Char) (session : Session) (r : RuleResult)
    (h : checkRepetition n session = some r) :
    r = { is_violation := true, rule_name := "repeated_message",
          response := some "Parece que ya enviaste ese mensaje.",
          confidence := 8/10 } := by
  unfold checkRepetition at h
  split at h
  next => cases h
  next =>
    split at h
    next => injection h with h2; exact h2.symm
    next => cases h

theorem checkSpam_shape (now : Int) (session : Session) (r : RuleResult)
    (h : checkSpam now session = some r) :
    r = { is_violation := true, rule_name := "spam_detected",
          response := some "Estás enviando mensajes muy rápido.",
          confidence := 75/100 } := by
  unfold checkSpam at h
  dsimp only at h
  split at h
  next => injection h with h2; exact h2.symm
  next => cases h

theorem checkInjection_shape (n : List Char) (r : RuleResult)
    (h : checkInjection n = some r) :
    r = { is_violation := true, rule_name := "prompt_injection",
          response := some "No puedo cambiar mis instrucciones.",
          confidence := 85/100 } := by
  unfold checkInjection at h
  split at h
  next => injection h with h2; exact h2.symm
  next => cases h

/-! ## Claim C4: violations always carry a user-facing response -/

/-- C4.  Every violation result of `check_message` or `check_response`
carries a non-empty user-facing response, and every non-violation result
is named all_rules_passed (inbound) or response_valid (outbound) with
confidence 1. -/
theorem C4_violations_carry_response (now : Int) (message : String)
    (session : Session) (maxLen : Nat) (response : String) :
    ((check_message now message session).is_violation = true →
      (check_message now message session).response.getD "" ≠ "") ∧
    ((check_message now message session).is_violation = false →
      (check_message now message session).rule_name = "all_rules_passed" ∧
      (check_message now message session).confidence = 1) ∧
    ((check_response maxLen response).is_violation = true →
      (check_response maxLen response).response.getD "" ≠ "") ∧
    ((check_response maxLen response).is_violation = false →
      (check_response maxLen response).rule_name = "response_valid" ∧
      (check_response maxLen response).confidence = 1) := by
  refine ⟨?_, ?_, ?_, ?_⟩
  · unfold check_message
    dsimp only
    apply chainP (fun r => r.is_violation = true → r.response.getD "" ≠ "")
    · intro r hr
      obtain ⟨name, _, rfl⟩ := checkForbidden_shape _ r hr
      intro _
      show "No puedo procesar ese tipo de solicitud." ≠ ""
      decide
    · intro r hr
      rw [(checkLength_shape _ r hr).2]
      intro _
      decide
    · intro r hr
      rw [checkRepetition_shape _ _ r hr]
      intro _
      decide
    · intro r hr
      rw [checkSpam_shape _ _ r hr]
      intro _
      decide
    · intro r hr
      rw [checkInjection_shape _ r hr]
      intro _
      decide
    · intro h
      simp at h
  · unfold check_message
    dsimp only
    apply chainP (fun r => r.is_violation = false →
      r.rule_name = "all_rules_passed" ∧ r.confidence = 1)
    · intro r hr
      obtain ⟨name, _, rfl⟩ := checkForbidden_shape _ r hr
      intro h
      simp at h
    · intro r hr
      rw [(checkLength_shape _ r hr).2]
      intro h
      simp at h
    · intro r hr
      rw [checkRepetition_shape _ _ r hr]
      intro h
      simp at h
    · intro r hr
      rw [checkSpam_shape _ _ r hr]
      intro h
      simp at h
    · intro r hr
      rw [checkInjection_shape _ r hr]
      intro h
      simp at h
    · intro _
      exact ⟨rfl, rfl⟩
  · unfold check_response
    split_ifs <;> intro h <;> first | decide | simp at h
  · unfold check_response
    split_ifs <;> intro h <;> first | exact ⟨rfl, rfl⟩ | simp at h

/-- Witness for C4: a benign greeting passes all inbound rules, an
overlong message yields a violation with a non-empty canned reply, a short
clean response is valid, and a password-mentioning response is a violation
with a non-empty canned reply. -/
theorem C4_witness :
    (check_message 0 "hola" session0).rule_name = "all_rules_passed" ∧
    (check_message 0 longMessage session0).response.getD "" ≠ "" ∧
    (check_response 500 "ok").rule_name = "response_valid" ∧
    (check_response 500 "la password es x").response.getD "" ≠ "" := by
  refine ⟨?_, ?_, ?_, ?_⟩
  · exact ((C4_violations_carry_response 0 "hola" session0 500 "ok").2.1 (by decide)).1
  · exact (C4_violations_carry_response 0 longMessage session0 500 "ok").1 (by decide)
  · exact ((C4_violations_carry_response 0 "hola" session0 500 "ok").2.2.2 (by decide)).1
  · exact (C4_violations_carry_response 0 "hola" session0 500
      "la password es x").2.2.1 (by decide)

/-! ## Claim C5: the 1000-character length rule -/

/-- C5.  When no forbidden pattern matches, a message strictly longer than
1000 characters is rejected as message_too_long with confidence 1, and a
message of at most 1000 characters is never rejected under that rule name
(in particular one of exactly 1000 characters). -/
theorem C5_length_rule (now : Int) (message : String) (session : Session) :
    (firstForbiddenMatch (pyStrip (pyLower message).data) = none →
      1000 < message.length →
      check_message now message session =
        { is_violation := true, rule_name := "message_too_long",
          response := some "Tu mensaje es demasiado largo.", confidence := 1 }) ∧
    (message.length ≤ 1000 →
      (check_message now message session).rule_name ≠ "message_too_long") := by
  constructor
  · intro hforb hlen
    unfold check_message
    dsimp only
    have h1 : checkForbidden (pyStrip (pyLower message).data) = none := by
      unfold checkForbidden
      rw [hforb]
      rfl
    have h2 : checkLength message = some
        { is_violation := true, rule_name := "message_too_long",
          response := some "Tu mensaje es demasiado largo.", confidence := 1 } := by
      unfold checkLength
      rw [if_pos hlen]
    rw [h1, h2]
    rfl
  · intro hlen
    unfold check_message
    dsimp only
    apply chainP (fun r => r.rule_name ≠ "message_too_long")
    · intro r hr
      obtain ⟨name, _, rfl⟩ := checkForbidden_shape _ r hr
      intro heq
      have hlen2 := congrArg String.length heq
      rw [String.length_append] at hlen2
      have h18 : ("forbidden_pattern_" : String).length = 18 := by decide
      have h16 : ("message_too_long" : String).length = 16 := by decide
      omega
    · intro r hr
      exact absurd (checkLength_shape _ r hr).1 (by omega)
    · intro r hr
      rw [checkRepetition_shape _ _ r hr]
      decide
    · intro r hr
      rw [checkSpam_shape _ _ r hr]
      decide
    · intro r hr
      rw [checkInjection_shape _ r hr]
      decide
    · decide

/-- Witness for C5: a message of 1001 repeated characters (which matches no
forbidden pattern) is rejected as message_too_long with confidence 1, and
one of exactly 1000 characters is not rejected under that rule name. -/
theorem C5_witness :
    check_message 0 longMessage session0 =
      { is_violation := true, rule_name := "message_too_long",
        response := some "Tu mensaje es demasiado largo.", confidence := 1 } ∧
    (check_message 0 (String.mk (List.replicate 1000 'a')) session0).rule_name
      ≠ "message_too_long" := by
  constructor
  · exact (C5_length_rule 0 longMessage session0).1 (by decide) (by decide)
  · exact (C5_length_rule 0 (String.mk (List.replicate 1000 'a')) session0).2 (by decide)

/-! ## Claim C9: the handoff decision is an OR of five signals -/

/-- C9.  `should_handoff` returns true exactly when at least one of the five
independently sufficient signals fires: an explicit human-request phrase in
the message, five or more user messages within the last ten history entries,
a frustration phrase, a complex/sensitive-topic phrase, or a session holding
twenty or more messages. -/
theorem C9_handoff_signals (session : Session) (last_message bot_response : String) :
    should_handoff session last_message bot_response = true ↔
      (user_requests_human last_message = true ∨
       5 ≤ ((pyLast10 session.messages).filter
          fun m => decide (m.role = MessageRole.user)).length ∨
       frustration_detected last_message = true ∨
       complex_topic_detected last_message = true ∨
       20 ≤ session.messages.length) := by
  unfold should_handoff multiple_failed_attempts long_conversation
  split_ifs with h1 h2 h3 h4 h5 <;> simp_all

/-- Witness for C9: a refund request triggers the complex-topic signal, so
the handoff decision is positive. -/
theorem C9_witness :
    should_handoff session0 "quiero un reembolso" "ok" = true :=
  (C9_handoff_signals session0 "quiero un reembolso" "ok").mpr
    (Or.inr (Or.inr (Or.inr (Or.inl (by decide)))))

/-! ## pyRfind lemmas -/

theorem pyRfind_ge_neg_one (c : Char) (l : List Char) : -1 ≤ pyRfind c l := by
  induction l with
  | nil => simp [pyRfind]
  | cons x xs ih =>
      simp only [pyRfind]
      split_ifs <;> omega

theorem pyRfind_lt_length (c : Char) (l : List Char) :
    pyRfind c l < (l.length : Int) := by
  induction l with
  | nil => simp [pyRfind]
  | cons x xs ih =>
      simp only [pyRfind, List.length_cons]
      split_ifs <;> push_cast <;> omega

theorem pyRfind_get (c : Char) (l : List Char) (h : 0 ≤ pyRfind c l) :
    l[(pyRfind c l).toNat]? = some c := by
  induction l with
  | nil => simp [pyRfind] at h
  | cons x xs ih =>
      simp only [pyRfind] at h ⊢
      by_cases hr : pyRfind c xs = -1
      · rw [if_pos hr] at h ⊢
        by_cases hx : x = c
        · simp [hx]
        · rw [if_neg hx] at h
          exfalso
          omega
      · rw [if_neg hr] at h ⊢
        have h0 : 0 ≤ pyRfind c xs := by
          have := pyRfind_ge_neg_one c xs
          omega
        have ht : (pyRfind c xs + 1).toNat = (pyRfind c xs).toNat + 1 := by omega
        rw [ht]
        simpa using ih h0

theorem le_pyRfind (c : Char) (l : List Char) (i : Nat) (h : l[i]? = some c) :
    (i : Int) ≤ pyRfind c l := by
  induction l generalizing i with
  | nil => simp at h
  | cons x xs ih =>
      cases i with
      | zero =>
          simp only [List.getElem?_cons_zero] at h
          injection h with hx
          simp only [pyRfind]
          by_cases hr : pyRfind c xs = -1
          · rw [if_pos hr, if_pos hx]
            simp
          · rw [if_neg hr]
            have := pyRfind_ge_neg_one c xs
            omega
      | succ j =>
          simp only [List.getElem?_cons_succ] at h
          have hj := ih j h
          simp only [pyRfind]
          by_cases hr : pyRfind c xs = -1
          · rw [hr] at hj
            omega
          · rw [if_neg hr]
            omega

theorem getLast?_take_succ (l : List Char) (k : Nat) (h : k < l.length) :
    (l.take (k + 1)).getLast? = l[k]? := by
  rw [List.getLast?_eq_getElem? (l.take (k + 1))]
  rw [List.length_take]
  have hmin : min (k + 1) l.length = k + 1 := by omega
  rw [hmin]
  simp only [Nat.add_sub_cancel]
  rw [List.getElem?_take, if_pos (by omega)]

/-! ## Claim C6 (amended): content-aware truncation -/

/-- C6, amended.  For a processed response longer than the configured
maximum, the generator truncates: the result is a body of at most `maxLen`
characters followed by the fixed notice; when a sentence boundary (period or
newline) exists strictly inside the last 20 percent of the limit (index `i`
with `5 * i > 4 * maxLen`), the cut lands on a boundary character; when no
boundary index satisfies that strict inequality — including one at exactly
80 percent of the limit — the cut is the hard cut at `maxLen`.  (The
original claim's at-least-80-percent threshold is corrected to the strict
one the code implements.) -/
theorem C6_truncation (maxLen : Nat) (s : String) (h : maxLen < s.length) :
    enforce_length maxLen s = truncate_response maxLen s ∧
    ∃ body : List Char,
      truncate_response maxLen s = String.mk body ++ TRUNC_NOTICE ∧
      body.length ≤ maxLen ∧
      ((∃ i : Nat, ((s.data.take maxLen)[i]? = some '.' ∨
          (s.data.take maxLen)[i]? = some '\n') ∧ 4 * maxLen < 5 * i) →
        (body.getLast? = some '.' ∨ body.getLast? = some '\n')) ∧
      ((∀ i : Nat, ((s.data.take maxLen)[i]? = some '.' ∨
          (s.data.take maxLen)[i]? = some '\n') → 5 * i ≤ 4 * maxLen) →
        body = s.data.take maxLen) := by
  constructor
  · unfold enforce_length
    rw [if_pos h]
  · unfold truncate_response
    dsimp only
    by_cases hcut : 4 * (maxLen : Int) <
        5 * max (pyRfind '.' (s.data.take maxLen)) (pyRfind '\n' (s.data.take maxLen))
    · rw [if_pos hcut]
      refine ⟨_, rfl, ?_, ?_, ?_⟩
      · have hp := pyRfind_lt_length '.' (s.data.take maxLen)
        have hn := pyRfind_lt_length '\n' (s.data.take maxLen)
        have hlen : ((s.data.take maxLen).length : Int) ≤ (maxLen : Int) := by
          have := List.length_take_le maxLen s.data
          push_cast
          omega
        have htake : ((s.data.take maxLen).take
            ((max (pyRfind '.' (s.data.take maxLen))
              (pyRfind '\n' (s.data.take maxLen))).toNat + 1)).length ≤
            (max (pyRfind '.' (s.data.take maxLen))
              (pyRfind '\n' (s.data.take maxLen))).toNat + 1 :=
          List.length_take_le _ _
        omega
      · intro _
        have h0 : 0 ≤ max (pyRfind '.' (s.data.take maxLen))
            (pyRfind '\n' (s.data.take maxLen)) := by omega
        rcases max_choice (pyRfind '.' (s.data.take maxLen))
            (pyRfind '\n' (s.data.take maxLen)) with hm | hm
        · left
          rw [hm]
          rw [hm] at h0
          have hi : (pyRfind '.' (s.data.take maxLen)).toNat <
              (s.data.take maxLen).length := by
            have := pyRfind_lt_length '.' (s.data.take maxLen)
            omega
          rw [getLast?_take_succ _ _ hi]
          exact pyRfind_get _ _ h0
        · right
          rw [hm]
          rw [hm] at h0
          have hi : (pyRfind '\n' (s.data.take maxLen)).toNat <
              (s.data.take maxLen).length := by
            have := pyRfind_lt_length '\n' (s.data.take maxLen)
            omega
          rw [getLast?_take_succ _ _ hi]
          exact pyRfind_get _ _ h0
      · intro hall
        exfalso
        have h0 : 0 ≤ max (pyRfind '.' (s.data.take maxLen))
            (pyRfind '\n' (s.data.take maxLen)) := by omega
        rcases max_choice (pyRfind '.' (s.data.take maxLen))
            (pyRfind '\n' (s.data.take maxLen)) with hm | hm
        · rw [hm] at h0 hcut
          have hget := pyRfind_get '.' (s.data.take maxLen) h0
          have := hall (pyRfind '.' (s.data.take maxLen)).toNat (Or.inl hget)
          omega
        · rw [hm] at h0 hcut
          have hget := pyRfind_get '\n' (s.data.take maxLen) h0
          have := hall (pyRfind '\n' (s.data.take maxLen)).toNat (Or.inr hget)
          omega
    · rw [if_neg hcut]
      refine ⟨_, rfl, List.length_take_le _ _, ?_, fun _ => rfl⟩
      intro hex
      exfalso
      obtain ⟨i, hb, hgt⟩ := hex
      rcases hb with hb | hb
      · have := le_pyRfind '.' (s.data.take maxLen) i hb
        have hle : pyRfind '.' (s.data.take maxLen) ≤
            max (pyRfind '.' (s.data.take maxLen))
              (pyRfind '\n' (s.data.take maxLen)) := le_max_left _ _
        omega
      · have := le_pyRfind '\n' (s.data.take maxLen) i hb
        have hle : pyRfind '\n' (s.data.take maxLen) ≤
            max (pyRfind '.' (s.data.take maxLen))
              (pyRfind '\n' (s.data.take maxLen)) := le_max_right _ _
        omega

/-- Counterexample for C6 as frozen: a 502-character response whose last
sentence boundary in the first 500 characters sits at index 400 — the cut
there would retain 401 characters, at least 80 percent of the 500 maximum,
so the claim demands a boundary cut — yet the code hard-cuts at 500. -/
theorem C6_counterexample :
    500 < boundary400.length ∧
    max (pyRfind '.' (boundary400.data.take 500))
      (pyRfind '\n' (boundary400.data.take 500)) = 400 ∧
    (∃ i : Nat, (boundary400.data.take 500)[i]? = some '.' ∧ 4 * 500 ≤ 5 * i) ∧
    truncate_response 500 boundary400 =
      String.mk (boundary400.data.take 500) ++ TRUNC_NOTICE ∧
    truncate_response 500 boundary400 ≠
      String.mk ((boundary400.data.take 500).take 401) ++ TRUNC_NOTICE := by
  refine ⟨by decide, by decide, ⟨400, by decide, by decide⟩, by decide, by decide⟩

/-- Witness for C6: a 551-character response with a period at index 450
(strictly inside the last 20 percent) goes through the truncation step and
is cut at that sentence boundary. -/
theorem C6_witness :
    enforce_length 500 boundary450 = truncate_response 500 boundary450 ∧
    truncate_response 500 boundary450 =
      String.mk (List.replicate 450 'a' ++ ['.']) ++ TRUNC_NOTICE := by
  have h := C6_truncation 500 boundary450 (by decide)
  exact ⟨h.1, by decide⟩

/-! ## Lexicographic-order lemmas for the catalog sort -/

theorem strLt_irrefl (l : List Char) : strLt l l = false := by
  induction l with
  | nil => rfl
  | cons x xs ih => simp [strLt, ih]

theorem strLt_trans {a b c : List Char} (h1 : strLt a b = true)
    (h2 : strLt b c = true) : strLt a c = true := by
  induction a generalizing b c with
  | nil =>
      cases b with
      | nil => simp [strLt] at h1
      | cons y ys =>
          cases c with
          | nil => simp [strLt] at h2
          | cons z zs => rfl
  | cons x xs ih =>
      cases b with
      | nil => simp [strLt] at h1
      | cons y ys =>
          cases c with
          | nil => simp [strLt] at h2
          | cons z zs =>
              simp only [strLt] at h1 h2 ⊢
              by_cases hxy : x = y
              · subst hxy
                rw [if_pos rfl] at h1
                by_cases hyz : x = z
                · subst hyz
                  rw [if_pos rfl] at h2 ⊢
                  exact ih h1 h2
                · rw [if_neg hyz] at h2 ⊢
                  exact h2
              · rw [if_neg hxy] at h1
                by_cases hyz : y = z
                · subst hyz
                  rw [if_neg hxy]
                  exact h1
                · rw [if_neg hyz] at h2
                  by_cases hxz : x = z
                  · subst hxz
                    exfalso
                    exact absurd (lt_trans (of_decide_eq_true h1) (of_decide_eq_true h2))
                      (lt_irrefl x)
                  · rw [if_neg hxz]
                    exact decide_eq_true
                      (lt_trans (of_decide_eq_true h1) (of_decide_eq_true h2))

theorem strLt_connex (a b : List Char) :
    strLt a b = true ∨ strLt b a = true ∨ a = b := by
  induction a generalizing b with
  | nil =>
      cases b with
      | nil => right; right; rfl
      | cons y ys => left; rfl
  | cons x xs ih =>
      cases b with
      | nil => right; left; rfl
      | cons y ys =>
          by_cases hxy : x = y
          · subst hxy
            rcases ih ys with h | h | h
            · left
              simp [strLt, h]
            · right; left
              simp [strLt, h]
            · right; right
              rw [h]
          · rcases lt_trichotomy x y with h | h | h
            · left
              simp [strLt, hxy, h]
            · exact absurd h hxy
            · right; left
              have hyx : ¬(y = x) := fun he => hxy he.symm
              simp [strLt, hyx, h]

theorem strLt_asymm {a b : List Char} (h : strLt a b = true) :
    strLt b a = false := by
  cases hba : strLt b a
  · rfl
  · exact absurd (strLt_trans h hba) (by simp [strLt_irrefl])

theorem strNotLt_trans {a b c : List Char} (h1 : strLt a b = false)
    (h2 : strLt b c = false) : strLt a c = false := by
  cases hac : strLt a c
  · rfl
  · exfalso
    rcases strLt_connex b a with hba | hba | hba
    · have := strLt_trans hba hac
      rw [this] at h2
      cases h2
    · rw [hba] at h1
      cases h1
    · subst hba
      rw [hac] at h2
      cases h2

/-! ## Catalog sort lemmas -/

/-- The descending-by-creation-date relation the sorted catalog satisfies. -/
def dateGe (a b : Product) : Prop :=
  strLt a.created_at.data b.created_at.data = false

theorem insertByDateDesc_perm (x : Product) (l : List Product) :
    List.Perm (insertByDateDesc x l) (x :: l) := by
  induction l with
  | nil => exact List.Perm.refl _
  | cons h t ih =>
      simp only [insertByDateDesc]
      split_ifs
      · exact List.Perm.trans (ih.cons h) (List.Perm.swap x h t)
      · exact List.Perm.refl _

theorem sortByDateDesc_perm (l : List Product) :
    List.Perm (sortByDateDesc l) l := by
  induction l with
  | nil => exact List.Perm.refl _
  | cons h t ih =>
      exact List.Perm.trans (insertByDateDesc_perm h (sortByDateDesc t)) (ih.cons h)

theorem insertByDateDesc_pairwise (x : Product) (l : List Product)
    (h : l.Pairwise dateGe) : (insertByDateDesc x l).Pairwise dateGe := by
  induction l with
  | nil => simp [insertByDateDesc, List.pairwise_cons]
  | cons a t ih =>
      obtain ⟨hat, htp⟩ := List.pairwise_cons.mp h
      simp only [insertByDateDesc]
      split_ifs with hlt
      · rw [List.pairwise_cons]
        refine ⟨?_, ih htp⟩
        intro y hy
        have hy2 := (insertByDateDesc_perm x t).mem_iff.mp hy
        rcases List.mem_cons.mp hy2 with rfl | hy3
        · exact strLt_asymm hlt
        · exact hat y hy3
      · simp only [Bool.not_eq_true] at hlt
        rw [List.pairwise_cons]
        refine ⟨?_, h⟩
        intro y hy
        rcases List.mem_cons.mp hy with rfl | hy2
        · exact hlt
        · exact strNotLt_trans hlt (hat y hy2)

theorem sortByDateDesc_pairwise (l : List Product) :
    (sortByDateDesc l).Pairwise dateGe := by
  induction l with
  | nil => exact List.Pairwise.nil
  | cons h t ih => exact insertByDateDesc_pairwise h (sortByDateDesc t) ih

/-! ## Claim C7 (amended): featured-product selection -/

/-- C7, amended.  `get_featured_products` returns at most `limit` products;
when at least `limit` products are flagged featured it returns the first
`limit` flagged products in catalog order (all flagged); when fewer than
`limit` are flagged, the result is the whole catalog sorted by creation date
descending (a permutation of the catalog, most recent first) truncated to
`limit` — the flagged selection is replaced, not padded, so a flagged
product returned in the pure-featured case may be absent from the result. -/
theorem C7_featured_products (catalog : List Product) (limit : Nat) :
    (get_featured_products catalog limit).length ≤ limit ∧
    (limit ≤ (catalog.filter fun p => p.featured).length →
      get_featured_products catalog limit =
        (catalog.filter fun p => p.featured).take limit ∧
      ∀ p ∈ get_featured_products catalog limit, p.featured = true) ∧
    ((catalog.filter fun p => p.featured).length < limit →
      get_featured_products catalog limit = (sortByDateDesc catalog).take limit ∧
      List.Perm (sortByDateDesc catalog) catalog ∧
      (sortByDateDesc catalog).Pairwise dateGe) := by
  unfold get_featured_products
  dsimp only
  by_cases hlt : (catalog.filter fun p => p.featured).length < limit
  · rw [if_pos hlt]
    refine ⟨?_, ?_, ?_⟩
    · rw [List.take_take, min_self]
      exact List.length_take_le _ _
    · intro hge
      omega
    · intro _
      rw [List.take_take, min_self]
      exact ⟨rfl, sortByDateDesc_perm catalog, sortByDateDesc_pairwise catalog⟩
  · rw [if_neg hlt]
    refine ⟨List.length_take_le _ _, ?_, ?_⟩
    · intro _
      refine ⟨rfl, ?_⟩
      intro p hp
      have := List.mem_of_mem_take hp
      exact (List.mem_filter.mp this).2
    · intro h
      omega

/-- Counterexample for C7 as frozen: in a catalog whose single flagged
product is older than five unflagged ones, the flagged product is selected
by the pure featured filter, yet the padded result (the catalog sorted by
date, truncated to 5) does not contain it. -/
theorem C7_counterexample :
    productA ∈ catalogWit.filter (fun p => p.featured) ∧
    productA.featured = true ∧
    productA ∉ get_featured_products catalogWit 5 := by
  refine ⟨by decide, by decide, by decide⟩

/-- Witness for C7: on the concrete catalog the padded branch applies, and
the result is the date-sorted catalog truncated to the limit. -/
theorem C7_witness :
    get_featured_products catalogWit 5 = (sortByDateDesc catalogWit).take 5 ∧
    List.Perm (sortByDateDesc catalogWit) catalogWit := by
  have h := (C7_featured_products catalogWit 5).2.2 (by decide)
  exact ⟨h.1, h.2.1⟩

/-! ## Ascending sort lemmas for the metrics collector -/

theorem insertAsc_perm (x : ℚ) (l : List ℚ) :
    List.Perm (insertAsc x l) (x :: l) := by
  induction l with
  | nil => exact List.Perm.refl _
  | cons h t ih =>
      simp only [insertAsc]
      split_ifs
      · exact List.Perm.refl _
      · exact List.Perm.trans (ih.cons h) (List.Perm.swap x h t)

theorem sortAsc_perm (l : List ℚ) : List.Perm (sortAsc l) l := by
  induction l with
  | nil => exact List.Perm.refl _
  | cons h t ih =>
      exact List.Perm.trans (insertAsc_perm h (sortAsc t)) (ih.cons h)

theorem insertAsc_pairwise (x : ℚ) (l : List ℚ)
    (h : l.Pairwise (· ≤ ·)) : (insertAsc x l).Pairwise (· ≤ ·) := by
  induction l with
  | nil => simp [insertAsc]
  | cons a t ih =>
      obtain ⟨hat, htp⟩ := List.pairwise_cons.mp h
      simp only [insertAsc]
      split_ifs with hle
      · rw [List.pairwise_cons]
        refine ⟨?_, h⟩
        intro y hy
        rcases List.mem_cons.mp hy with rfl | hy2
        · exact hle
        · exact le_trans hle (hat y hy2)
      · push_neg at hle
        rw [List.pairwise_cons]
        refine ⟨?_, ih htp⟩
        intro y hy
        have hy2 := (insertAsc_perm x t).mem_iff.mp hy
        rcases List.mem_cons.mp hy2 with rfl | hy3
        · exact le_of_lt hle
        · exact hat y hy3

theorem sortAsc_pairwise (l : List ℚ) : (sortAsc l).Pairwise (· ≤ ·) := by
  induction l with
  | nil => exact List.Pairwise.nil
  | cons h t ih => exact insertAsc_pairwise h (sortAsc t) ih

theorem sortAsc_headD_le (l : List ℚ) (x : ℚ) (hx : x ∈ l) :
    (sortAsc l).headD 0 ≤ x := by
  have hx2 : x ∈ sortAsc l := (sortAsc_perm l).mem_iff.mpr hx
  cases hs : sortAsc l with
  | nil => rw [hs] at hx2; simp at hx2
  | cons a t =>
      rw [hs] at hx2
      have hp := sortAsc_pairwise l
      rw [hs] at hp
      rcases List.mem_cons.mp hx2 with rfl | hx3
      · simp
      · simpa using (List.pairwise_cons.mp hp).1 x hx3

/-- The percentile index `int(count * (n/100))` computed by the code equals
the rational floor of `count * n / 100`.  (For every count up to the
1000-sample retention cap this is also exactly what the Python double
arithmetic produces.) -/
theorem percentile_index_floor (count n : Nat) :
    ⌊((count : ℚ) * ((n : ℕ) : ℚ) / 100)⌋₊ = count * n / 100 := by
  rw [show ((count : ℚ) * ((n : ℕ) : ℚ) / 100) =
    ((count * n : ℕ) : ℚ) / ((100 : ℕ) : ℚ) by push_cast; ring]
  rw [Nat.floor_div_nat, Nat.floor_natCast]

/-! ## Claim C8: timer statistics -/

/-- C8.  On a non-empty retained series, `get_timer_stats` reports: the
sample count; the average as sum divided by count; min and max as first and
last of the sorted samples (and the reported min is a lower bound of every
sample); and the three percentiles as the sorted sample at index
`floor(count * fraction)`.  On the series 1..10 this yields count 10,
avg 5.5, min 1, max 10, p50 = 6 (= sorted[5]), p95 = 10 (= sorted[9]),
p99 = 10 (= sorted[9]).  `record_time` keeps at most the 1000 most recent
samples, dropping the oldest first. -/
theorem C8_timer_stats :
    (∀ times : List ℚ, times ≠ [] →
      (get_timer_stats times).count = times.length ∧
      (get_timer_stats times).avg = times.sum / times.length ∧
      (get_timer_stats times).min = (sortAsc times).headD 0 ∧
      (get_timer_stats times).max = (sortAsc times).getLastD 0 ∧
      (∀ x ∈ times, (get_timer_stats times).min ≤ x) ∧
      (get_timer_stats times).p50 =
        (sortAsc times).getD (⌊((times.length : ℚ) * ((50 : ℕ) : ℚ) / 100)⌋₊) 0 ∧
      (get_timer_stats times).p95 =
        (sortAsc times).getD (⌊((times.length : ℚ) * ((95 : ℕ) : ℚ) / 100)⌋₊) 0 ∧
      (get_timer_stats times).p99 =
        (sortAsc times).getD (⌊((times.length : ℚ) * ((99 : ℕ) : ℚ) / 100)⌋₊) 0) ∧
    (get_timer_stats [1, 2, 3, 4, 5, 6, 7, 8, 9, 10] =
      { count := 10, avg := 11/2, min := 1, max := 10,
        p50 := 6, p95 := 10, p99 := 10 } ∧
      (sortAsc [1, 2, 3, 4, 5, 6, 7, 8, 9, 10]).getD 5 0 = 6 ∧
      (sortAsc [1, 2, 3, 4, 5, 6, 7, 8, 9, 10]).getD 9 0 = 10) ∧
    (∀ (l : List ℚ) (d : ℚ), l.length ≤ 1000 →
      (record_time l d).length ≤ 1000 ∧
      (record_time l d).IsSuffix (l ++ [d]) ∧
      (l.length < 1000 → record_time l d = l ++ [d])) := by
  have hsort : sortAsc [1, 2, 3, 4, 5, 6, 7, 8, 9, 10] =
      [1, 2, 3, 4, 5, 6, 7, 8, 9, 10] := by
    norm_num [sortAsc, insertAsc]
  refine ⟨?_, ⟨?_, ?_, ?_⟩, ?_⟩
  case refine_2 =>
    unfold get_timer_stats
    dsimp only
    rw [hsort]
    norm_num [List.getD, List.getLastD, TimerStats.mk.injEq]
  case refine_3 =>
    rw [hsort]
    norm_num [List.getD]
  case refine_4 =>
    rw [hsort]
    norm_num [List.getD]
  · intro times hne
    obtain ⟨a, t, rfl⟩ := List.exists_cons_of_ne_nil hne
    refine ⟨rfl, ?_, rfl, rfl, ?_, ?_, ?_, ?_⟩
    · show (sortAsc (a :: t)).sum / ((a :: t).length : ℚ) = _
      rw [(sortAsc_perm (a :: t)).sum_eq]
    · intro x hx
      exact sortAsc_headD_le (a :: t) x hx
    · show (sortAsc (a :: t)).getD ((a :: t).length * 50 / 100) 0 = _
      rw [percentile_index_floor]
    · show (sortAsc (a :: t)).getD ((a :: t).length * 95 / 100) 0 = _
      rw [percentile_index_floor]
    · show (sortAsc (a :: t)).getD ((a :: t).length * 99 / 100) 0 = _
      rw [percentile_index_floor]
  · intro l d hlen
    unfold record_time
    dsimp only
    by_cases hfull : (l ++ [d]).length > 1000
    · rw [if_pos hfull]
      simp only [List.length_append, List.length_cons, List.length_nil] at hfull
      refine ⟨?_, List.drop_suffix _ _, ?_⟩
      · rw [List.length_drop]
        simp only [List.length_append, List.length_cons, List.length_nil]
        omega
      · intro hsmall
        omega
    · rw [if_neg hfull]
      simp only [List.length_append, List.length_cons, List.length_nil] at hfull
      refine ⟨?_, List.suffix_refl _, fun _ => rfl⟩
      simp only [List.length_append, List.length_cons, List.length_nil]
      omega

/-- Witness for C8: the general statistics clauses instantiated on the
concrete series 1..10, and the retention clause on a singleton series. -/
theorem C8_witness :
    (get_timer_stats [1, 2, 3, 4, 5, 6, 7, 8, 9, 10]).avg =
      ([1, 2, 3, 4, 5, 6, 7, 8, 9, 10] : List ℚ).sum / 10 ∧
    (get_timer_stats [1, 2, 3, 4, 5, 6, 7, 8, 9, 10]).p95 =
      (sortAsc [1, 2, 3, 4, 5, 6, 7, 8, 9, 10]).getD
        (⌊((10 : ℚ) * ((95 : ℕ) : ℚ) / 100)⌋₊) 0 ∧
    record_time [(3 : ℚ)] 4 = [3, 4] := by
  have h := C8_timer_stats.1 [1, 2, 3, 4, 5, 6, 7, 8, 9, 10] (by simp)
  have hr := C8_timer_stats.2.2 [(3 : ℚ)] 4 (by decide)
  exact ⟨h.2.1, h.2.2.2.2.2.2.1, hr.2.2 (by decide)⟩

/-! ## Digest lemmas and SHA-256 validation vectors -/

theorem sha256_ne_nil (msg : List Nat) : sha256 msg ≠ [] := by
  unfold sha256
  dsimp only
  simp [wordBytes]

theorem bytesToHex_ne_empty (bs : List Nat) (h : bs ≠ []) :
    bytesToHex bs ≠ "" := by
  cases bs with
  | nil => exact absurd rfl h
  | cons b t =>
      intro he
      have hd := congrArg String.data he
      simp [bytesToHex] at hd

theorem hmacSha256Hex_ne_empty (secret : String) (payload : List Nat) :
    hmacSha256Hex secret payload ≠ "" := by
  unfold hmacSha256Hex hmacSha256
  exact bytesToHex_ne_empty _ (sha256_ne_nil _)

/-- FIPS 180-4 test vector: SHA-256 of the empty message. -/
theorem sha256_empty_vector :
    bytesToHex (sha256 []) =
      "e3b0c44298fc1c149afbf4c8996fb92427ae41e4649b934ca495991b7852b855" := by
  decide

/-- FIPS 180-4 test vector: SHA-256 of the ASCII string abc. -/
theorem sha256_abc_vector :
    bytesToHex (sha256 (utf8Bytes "abc")) =
      "ba7816bf8f01cfea414140de5dae2223b00361a396177a9cb410ff61f20015ad" := by
  decide

/-- RFC 4231 test case 2 for HMAC-SHA-256. -/
theorem hmac_rfc4231_case2 :
    bytesToHex (hmacSha256 (utf8Bytes "Jefe")
      (utf8Bytes "what do ya want for nothing?")) =
      "5bdcc146bf60754e6a042426089575c75a003f089d2739839dec58b964ec3843" := by
  decide

/-! ## Claim C3: webhook signature verification -/

/-- C3.  For non-empty signature and secret, `verify_webhook_signature`
returns true exactly when the supplied signature equals the lowercase hex
HMAC-SHA-256 of the payload under the UTF-8-encoded secret; the correct
digest of the test payload under the secret test_secret verifies as valid;
any single-character mutation of that digest verifies as invalid; and
absence or emptiness of either signature or secret yields false without
raising. -/
theorem C3_signature_verification :
    (∀ (sig secret : String) (payload : List Nat), sig ≠ "" → secret ≠ "" →
      (verify_webhook_signature (some sig) payload (some secret) = true ↔
        sig = hmacSha256Hex secret payload)) ∧
    (verify_webhook_signature (some (hmacSha256Hex "test_secret" testPayload))
      testPayload (some "test_secret") = true) ∧
    (∀ (pre suf : List Char) (c c' : Char),
      (hmacSha256Hex "test_secret" testPayload).data = pre ++ c :: suf →
      c' ≠ c →
      verify_webhook_signature (some (String.mk (pre ++ c' :: suf))) testPayload
        (some "test_secret") = false) ∧
    (∀ (payload : List Nat) (secret : Option String),
      verify_webhook_signature none payload secret = false) ∧
    (∀ (payload : List Nat) (secret : Option String),
      verify_webhook_signature (some "") payload secret = false) ∧
    (∀ (sig : Option String) (payload : List Nat),
      verify_webhook_signature sig payload none = false) ∧
    (∀ (sig : Option String) (payload : List Nat),
      verify_webhook_signature sig payload (some "") = false) := by
  refine ⟨?_, ?_, ?_, ?_, ?_, ?_, ?_⟩
  · intro sig secret payload hsig hsecret
    unfold verify_webhook_signature
    simp [pyFalsyStr, hsig, hsecret]
  · unfold verify_webhook_signature
    simp [pyFalsyStr, hmacSha256Hex_ne_empty "test_secret" testPayload]
  · intro pre suf c c' hdig hne
    have hmut : String.mk (pre ++ c' :: suf) ≠ "" := by
      intro he
      have hd := congrArg String.data he
      simp at hd
    unfold verify_webhook_signature
    simp only [pyFalsyStr, hmut, decide_eq_true_eq]
    rw [if_neg ?hc]
    case hc =>
      simp [hmut]
    simp only [Option.getD_some]
    apply decide_eq_false
    intro he
    have hd := congrArg String.data he
    rw [hdig] at hd
    simp only [String.data] at hd
    have := List.append_cancel_left hd
    injection this with hcc
    exact hne hcc
  · intro payload secret
    rfl
  · intro payload secret
    rfl
  · intro sig payload
    unfold verify_webhook_signature
    simp [pyFalsyStr]
  · intro sig payload
    unfold verify_webhook_signature
    cases sig with
    | none => rfl
    | some s =>
        simp [pyFalsyStr]

/-- Witness for C3: the signature 00 with secret k on the empty payload is
rejected, by the equality characterisation, because it differs from the
recomputed digest. -/
theorem C3_witness :
    verify_webhook_signature (some "00") [] (some "k") = false := by
  have h := C3_signature_verification.1 "00" "k" [] (by decide) (by decide)
  have hne : "00" ≠ hmacSha256Hex "k" [] := by decide
  cases hv : verify_webhook_signature (some "00") [] (some "k") with
  | false => rfl
  | true => exact absurd (h.mp hv) hne

end Tienda21
